import Mathlib

/-!
Shallow embedding of the risk-and-execution core of the ai-trading-app
repository (backend/src/services/risk/riskManager.js,
backend/src/services/trading/tradingEngine.js, backend/src/utils
resilience and rate-limiter modules), together with theorems checking the
natural-language specification against it.

Conventions:
- JavaScript numbers are modelled as rationals.
- parseFloat(x.toFixed(n)) and Math.round both round half toward positive
  infinity, which coincides with the Mathlib round function; Math.floor is Int.floor.
- Database rows become Lean structures; the database state becomes an
  explicit record threaded through the engine operations.
-/

/-- Rounding used by parseFloat(x.toFixed(digits)) in the source:
round to the given number of decimal digits, ties toward positive
infinity (this is what the Mathlib round function does). -/
def toFixedQ (digits : ℕ) (x : ℚ) : ℚ :=
  (round (x * 10 ^ digits) : ℚ) / 10 ^ digits

/-- market_type column: CHECK constrained to stock or forex. -/
inductive MarketType
  | stock
  | forex
deriving DecidableEq, Repr

/-- side column: CHECK constrained to long or short. -/
inductive Side
  | long
  | short
deriving DecidableEq, Repr

/- Configuration constants from backend/src/config/config.js. -/

/-- config.maxRiskPerTrade default 0.02. -/
def maxRiskPerTrade : ℚ := 1 / 50

/-- config.risk.stocks.stopLossPercent = 0.025. -/
def stockStopLossPercent : ℚ := 1 / 40

/-- config.risk.stocks.takeProfitPercent = 0.05. -/
def stockTakeProfitPercent : ℚ := 1 / 20

/-- config.risk.forex.stopLossPips = 35. -/
def forexStopLossPips : ℚ := 35

/-- config.risk.forex.takeProfitPips = 70. -/
def forexTakeProfitPips : ℚ := 70

/-- config.risk.forex.pipValue = 0.0001. -/
def pipValue : ℚ := 1 / 10000

/-- Result record of RiskManager.calculateStopLevels. -/
structure StopLevels where
  stopLoss : ℚ
  takeProfit : ℚ
  riskRewardRatio : ℚ
deriving DecidableEq, Repr

/-- RiskManager.calculateStopLevels (riskManager.js lines 132-166).
Stocks scale the entry price by the configured percentages, forex adds or
subtracts pip distances; both outputs pass through toFixed(5). -/
def calculateStopLevels (entryPrice : ℚ) (side : Side) (marketType : MarketType) :
    StopLevels :=
  match marketType, side with
  | .stock, .long =>
      { stopLoss := toFixedQ 5 (entryPrice * (1 - stockStopLossPercent))
        takeProfit := toFixedQ 5 (entryPrice * (1 + stockTakeProfitPercent))
        riskRewardRatio := stockTakeProfitPercent / stockStopLossPercent }
  | .stock, .short =>
      { stopLoss := toFixedQ 5 (entryPrice * (1 + stockStopLossPercent))
        takeProfit := toFixedQ 5 (entryPrice * (1 - stockTakeProfitPercent))
        riskRewardRatio := stockTakeProfitPercent / stockStopLossPercent }
  | .forex, .long =>
      { stopLoss := toFixedQ 5 (entryPrice - forexStopLossPips * pipValue)
        takeProfit := toFixedQ 5 (entryPrice + forexTakeProfitPips * pipValue)
        riskRewardRatio := forexTakeProfitPips / forexStopLossPips }
  | .forex, .short =>
      { stopLoss := toFixedQ 5 (entryPrice + forexStopLossPips * pipValue)
        takeProfit := toFixedQ 5 (entryPrice - forexTakeProfitPips * pipValue)
        riskRewardRatio := forexTakeProfitPips / forexStopLossPips }

/-- Result record of RiskManager.calculateProfitLoss. -/
structure ProfitLossResult where
  profitLoss : ℚ
  profitLossPercent : ℚ
deriving DecidableEq, Repr

/-- RiskManager.calculateProfitLoss (riskManager.js lines 196-210).
Long profit is (exit - entry) * quantity, short is (entry - exit) *
quantity; the percent multiplies by -1 for short; both pass toFixed(2). -/
def calculateProfitLoss (entryPrice exitPrice quantity : ℚ) (side : Side) :
    ProfitLossResult :=
  let profitLoss :=
    match side with
    | .long => (exitPrice - entryPrice) * quantity
    | .short => (entryPrice - exitPrice) * quantity
  let profitLossPercent :=
    (exitPrice - entryPrice) / entryPrice * 100 *
      (match side with | .long => 1 | .short => -1)
  { profitLoss := toFixedQ 2 profitLoss
    profitLossPercent := toFixedQ 2 profitLossPercent }

/-- Position row (positions table of schema.sql; snake_case columns become
lowerCamel fields). -/
structure Position where
  id : ℕ
  symbol : String
  marketType : MarketType
  side : Side
  entryPrice : ℚ
  quantity : ℚ
  stopLoss : ℚ
  takeProfit : ℚ
  openedAt : ℤ
deriving DecidableEq, Repr

/-- Reason tags returned by RiskManager.shouldClosePosition. -/
inductive CloseReason
  | stopLossHit
  | takeProfitHit
deriving DecidableEq, Repr

/-- Result of RiskManager.shouldClosePosition: either close at an exit
price with a reason, or do not close. -/
inductive CloseDecision
  | noClose
  | close (reason : CloseReason) (exitPrice : ℚ)
deriving DecidableEq, Repr

/-- RiskManager.shouldClosePosition (riskManager.js lines 171-191).
The stop-loss comparison runs first, then the take-profit comparison;
the exit price is the stored level, not the current price. -/
def shouldClosePosition (position : Position) (currentPrice : ℚ) : CloseDecision :=
  match position.side with
  | .long =>
      if currentPrice ≤ position.stopLoss then
        .close .stopLossHit position.stopLoss
      else if currentPrice ≥ position.takeProfit then
        .close .takeProfitHit position.takeProfit
      else .noClose
  | .short =>
      if currentPrice ≥ position.stopLoss then
        .close .stopLossHit position.stopLoss
      else if currentPrice ≤ position.takeProfit then
        .close .takeProfitHit position.takeProfit
      else .noClose

/-- Result of RiskManager.calculatePositionSize: the degenerate-stop
branch returns quantity 0 with an error marker and no positionValue;
otherwise quantity, riskAmount, positionValue, riskPercent. -/
inductive PositionSizeResult
  | invalidStop
  | sized (quantity riskAmount positionValue riskPercent : ℚ)
deriving DecidableEq, Repr

/-- Quantity before the 95 percent position-value cap (riskManager.js
lines 98-111): riskAmount / riskPerUnit, floored to whole shares for
stocks and rounded to 2 decimals for forex. -/
def preCapQuantity (balance entryPrice stopLossPrice : ℚ) (marketType : MarketType) : ℚ :=
  let quantity := balance * maxRiskPerTrade / |entryPrice - stopLossPrice|
  match marketType with
  | .stock => ((⌊quantity⌋ : ℤ) : ℚ)
  | .forex => ((round (quantity * 100) : ℤ) : ℚ) / 100

/-- Quantity after the affordability cap (riskManager.js lines 113-117):
if quantity * entryPrice exceeds 95 percent of balance, requantify as
floor(0.95 * balance / entryPrice). -/
def cappedQuantity (balance entryPrice stopLossPrice : ℚ) (marketType : MarketType) : ℚ :=
  if preCapQuantity balance entryPrice stopLossPrice marketType * entryPrice >
      balance * (19 / 20) then
    ((⌊balance * (19 / 20) / entryPrice⌋ : ℤ) : ℚ)
  else
    preCapQuantity balance entryPrice stopLossPrice marketType

/-- RiskManager.calculatePositionSize (riskManager.js lines 97-127). -/
def calculatePositionSize (balance entryPrice stopLossPrice : ℚ)
    (marketType : MarketType) : PositionSizeResult :=
  if |entryPrice - stopLossPrice| = 0 then
    .invalidStop
  else
    .sized (cappedQuantity balance entryPrice stopLossPrice marketType)
      (balance * maxRiskPerTrade)
      (cappedQuantity balance entryPrice stopLossPrice marketType * entryPrice)
      (balance * maxRiskPerTrade / balance * 100)

example : calculateProfitLoss 100 110 10 .long =
    { profitLoss := 100, profitLossPercent := 10 } := by
  rw [calculateProfitLoss]
  simp only [toFixedQ, round_eq]
  norm_num

example : calculateProfitLoss 100 110 10 .short =
    { profitLoss := -100, profitLossPercent := -10 } := by
  rw [calculateProfitLoss]
  simp only [toFixedQ, round_eq]
  norm_num

example : (calculateStopLevels 100 .long .stock).stopLoss = 195 / 2 := by
  rw [calculateStopLevels]
  simp only [toFixedQ, round_eq, stockStopLossPercent]
  norm_num

example : (calculateStopLevels 100 .long .stock).takeProfit = 105 := by
  rw [calculateStopLevels]
  simp only [toFixedQ, round_eq, stockTakeProfitPercent]
  norm_num

example : (calculateStopLevels (1 / 100000) .long .stock).stopLoss = 1 / 100000 := by
  rw [calculateStopLevels]
  simp only [toFixedQ, round_eq, stockStopLossPercent]
  norm_num

example : calculatePositionSize 10000 100 (195 / 2) .stock =
    .sized 80 200 8000 2 := by
  rw [calculatePositionSize, cappedQuantity, preCapQuantity]
  rw [show |(100 : ℚ) - 195 / 2| = 5 / 2 by rw [abs_of_pos] <;> norm_num]
  norm_num [maxRiskPerTrade]

/-- Trade row (trades table of schema.sql); closed_at is filled by the
database with the current timestamp at insertion. -/
structure TradeRecord where
  symbol : String
  marketType : MarketType
  side : Side
  entryPrice : ℚ
  exitPrice : ℚ
  quantity : ℚ
  profitLoss : ℚ
  profitLossPercent : ℚ
  exitReason : String
  openedAt : ℤ
  closedAt : ℤ
deriving DecidableEq, Repr

/-- bot_status row: trades_today counter and last_trade_at timestamp
(milliseconds); last_trade_at is NULL until the first trade opens. -/
structure BotStatus where
  tradesToday : ℕ
  lastTradeAt : Option ℤ
deriving DecidableEq, Repr

/-- The database state the trading engine operates on: user balance,
positions table, trades table (most recent closed trade first, matching
the ORDER BY closed_at DESC of tradeDb.getAll), bot status, and the next
AUTOINCREMENT id for positions. -/
structure EngineState where
  balance : ℚ
  positions : List Position
  trades : List TradeRecord
  bot : BotStatus
  nextPositionId : ℕ
deriving DecidableEq, Repr

/-- Result of TradingEngine.openPosition: either the rejection
"Position size too small or insufficient balance" or a success carrying
the new position snapshot fields the claims mention. -/
inductive OpenResult
  | rejected
  | openedOk (positionId : ℕ) (stopLoss takeProfit quantity positionValue riskAmount : ℚ)
deriving DecidableEq, Repr

/-- TradingEngine.openPosition (tradingEngine.js): reads the balance,
computes stop levels and position size, rejects when quantity ≤ 0,
otherwise inserts the Position row and calls botDb.incrementTrades
(which sets trades_today + 1 and last_trade_at = now). It never writes
the user balance. -/
def openPosition (s : EngineState) (symbol : String) (marketType : MarketType)
    (side : Side) (entryPrice : ℚ) (now : ℤ) : OpenResult × EngineState :=
  let levels := calculateStopLevels entryPrice side marketType
  match calculatePositionSize s.balance entryPrice levels.stopLoss marketType with
  | .invalidStop => (.rejected, s)
  | .sized quantity riskAmount positionValue _ =>
      if quantity ≤ 0 then (.rejected, s)
      else
        let p : Position :=
          { id := s.nextPositionId, symbol, marketType, side, entryPrice, quantity
            stopLoss := levels.stopLoss, takeProfit := levels.takeProfit
            openedAt := now }
        (.openedOk p.id levels.stopLoss levels.takeProfit quantity positionValue riskAmount,
          { s with positions := p :: s.positions
                   nextPositionId := s.nextPositionId + 1
                   bot := { tradesToday := s.bot.tradesToday + 1, lastTradeAt := some now } })

/-- Outcome of TradingEngine.closePosition: the structured failure
"Position not found", an uncaught exception from one of the three
database writes, or success with the realized profit and new balance. -/
inductive CloseOutcome
  | notFound
  | threw
  | closedOk (profitLoss profitLossPercent newBalance : ℚ)
deriving DecidableEq, Repr

/-- TradingEngine.closePosition (tradingEngine.js). The three database
writes (userDb.updateBalance, tradeDb.create, positionDb.delete) run
sequentially with no transaction and no try/catch, so the embedding
takes one fault flag per write: when a write throws, the writes already
performed remain in the state. -/
def closePosition (s : EngineState) (positionId : ℕ) (exitPrice : ℚ) (reason : String)
    (now : ℤ) (failBalanceWrite failTradeInsert failPositionDelete : Bool) :
    CloseOutcome × EngineState :=
  match s.positions.find? (fun p => p.id == positionId) with
  | none => (.notFound, s)
  | some position =>
      let pl := calculateProfitLoss position.entryPrice exitPrice position.quantity
        position.side
      let newBalance := s.balance + pl.profitLoss
      if failBalanceWrite then (.threw, s)
      else
        let s1 := { s with balance := newBalance }
        if failTradeInsert then (.threw, s1)
        else
          let t : TradeRecord :=
            { symbol := position.symbol, marketType := position.marketType
              side := position.side, entryPrice := position.entryPrice, exitPrice
              quantity := position.quantity, profitLoss := pl.profitLoss
              profitLossPercent := pl.profitLossPercent, exitReason := reason
              openedAt := position.openedAt, closedAt := now }
          let s2 := { s1 with trades := t :: s1.trades }
          if failPositionDelete then (.threw, s2)
          else
            (.closedOk pl.profitLoss pl.profitLossPercent newBalance,
              { s2 with positions := s2.positions.filter (fun p => p.id != positionId) })

/-- Rule names pushed by RiskManager.canOpenTrade. -/
inductive RiskRule
  | maxTradesPerDayRule
  | noDuplicatePosition
  | minimumBalance
  | lossCooldown
deriving DecidableEq, Repr

/-- One entry of the checks array of canOpenTrade (the human-readable
message strings are dropped). -/
structure RiskCheck where
  rule : RiskRule
  passed : Bool
deriving DecidableEq, Repr

/-- The 15-minute cooldown window of canOpenTrade, in milliseconds. -/
def cooldownMs : ℤ := 15 * 60 * 1000

/-- RiskManager.canOpenTrade (riskManager.js lines 18-92). Returns the
allowed flag together with the checks array. maxPerDay is
config.maxTradesPerDay. Check 4 is pushed (always failed) only when
last_trade_at is set, the most recent trade in the trades table exists
and was a loss, and less than 15 minutes have passed since
last_trade_at. -/
def canOpenTrade (maxPerDay : ℕ) (s : EngineState) (symbol : String) (balance : ℚ)
    (now : ℤ) : Bool × List RiskCheck :=
  let check1 : RiskCheck :=
    { rule := .maxTradesPerDayRule, passed := !(decide (s.bot.tradesToday ≥ maxPerDay)) }
  let check2 : RiskCheck :=
    { rule := .noDuplicatePosition
      passed := (s.positions.find? (fun p => p.symbol == symbol)).isNone }
  let check3 : RiskCheck :=
    { rule := .minimumBalance, passed := !(decide (balance < 100)) }
  let cooldownChecks : List RiskCheck :=
    match s.bot.lastTradeAt with
    | none => []
    | some lastTradeTime =>
        match s.trades.head? with
        | none => []
        | some lastTrade =>
            if lastTrade.profitLoss < 0 ∧ now - lastTradeTime < cooldownMs then
              [{ rule := .lossCooldown, passed := false }]
            else []
  let checks := [check1, check2, check3] ++ cooldownChecks
  (checks.all (fun c => c.passed), checks)

/-- Whether the checks array contains a failed LOSS_COOLDOWN entry. -/
def hasFailedLossCooldown (checks : List RiskCheck) : Bool :=
  checks.any (fun c => c.rule == RiskRule.lossCooldown && !c.passed)

/-- States of the circuit breaker (resilience module). -/
inductive BreakerState
  | closed
  | opened
  | halfOpen
deriving DecidableEq, Repr

/-- CircuitBreaker instance state plus its configuration
(failureThreshold, resetTimeout, halfOpenRequests). Timestamps in
milliseconds. -/
structure CircuitBreaker where
  failureThreshold : ℕ
  resetTimeout : ℤ
  halfOpenRequests : ℕ
  state : BreakerState
  failureCount : ℕ
  successCount : ℕ
  lastFailureTime : Option ℤ
  nextAttemptTime : Option ℤ
deriving DecidableEq, Repr

/-- CircuitBreaker.canAttempt (resilience module lines 24-43). In OPEN
the check itself moves the breaker to HALF_OPEN (resetting
successCount) once nextAttemptTime is reached, so the method returns
both the answer and the possibly-updated breaker. In HALF_OPEN the
check mutates nothing. -/
def CircuitBreaker.canAttempt (b : CircuitBreaker) (now : ℤ) :
    Bool × CircuitBreaker :=
  match b.state with
  | .closed => (true, b)
  | .opened =>
      match b.nextAttemptTime with
      | some t =>
          if now ≥ t then (true, { b with state := .halfOpen, successCount := 0 })
          else (false, b)
      | none => (false, b)
  | .halfOpen => (decide (b.successCount < b.halfOpenRequests), b)

/-- CircuitBreaker.recordSuccess (resilience module lines 48-58). -/
def CircuitBreaker.recordSuccess (b : CircuitBreaker) : CircuitBreaker :=
  let b1 := { b with failureCount := 0 }
  match b1.state with
  | .halfOpen =>
      let b2 := { b1 with successCount := b1.successCount + 1 }
      if b2.successCount ≥ b2.halfOpenRequests then { b2 with state := .closed }
      else b2
  | _ => b1

/-- CircuitBreaker.recordFailure (resilience module lines 63-81): bump
the count and last-failure time; open (setting nextAttemptTime) once
the count reaches the threshold; an untouched HALF_OPEN state also
reopens. -/
def CircuitBreaker.recordFailure (b : CircuitBreaker) (now : ℤ) : CircuitBreaker :=
  let b1 := { b with failureCount := b.failureCount + 1, lastFailureTime := some now }
  let b2 :=
    if b1.failureCount ≥ b1.failureThreshold then
      { b1 with state := .opened, nextAttemptTime := some (now + b1.resetTimeout) }
    else b1
  if b2.state = .halfOpen then
    { b2 with state := .opened, nextAttemptTime := some (now + b2.resetTimeout) }
  else b2

/-- Apply recordFailure n times, the i-th call at clock time times i. -/
def applyFailures (b : CircuitBreaker) (times : ℕ → ℤ) : ℕ → CircuitBreaker
  | 0 => b
  | n + 1 => (applyFailures b times n).recordFailure (times n)

/-- RetryPolicy configuration (resilience module lines 99-106). -/
structure RetryPolicy where
  maxRetries : ℕ
  initialDelay : ℚ
  maxDelay : ℚ
  backoffMultiplier : ℚ
  jitterFactor : ℚ
deriving DecidableEq, Repr

/-- RetryPolicy.calculateDelay (resilience module lines 111-118): cap
the exponential backoff at maxDelay, then add jitter = cappedDelay *
jitterFactor * random, with random the Math.random() sample in [0,1). -/
def RetryPolicy.calculateDelay (p : RetryPolicy) (attemptNumber : ℕ) (rand : ℚ) : ℚ :=
  let delay := min (p.initialDelay * p.backoffMultiplier ^ attemptNumber) p.maxDelay
  delay + delay * p.jitterFactor * rand

/-- Body of the retry loop of RetryPolicy.execute, from a given attempt
index with a given number of further attempts still permitted. fn gives
the (deterministic) outcome of each attempt, rand the Math.random()
sample used for the sleep after each failed non-final attempt. Returns
the final outcome, the number of times fn was invoked, and the list of
sleep durations. -/
def executeFrom (p : RetryPolicy) (fn : ℕ → Except ε α) (rand : ℕ → ℚ) :
    ℕ → ℕ → Except ε α × ℕ × List ℚ
  | attempt, 0 => (fn attempt, 1, [])
  | attempt, remaining + 1 =>
      match fn attempt with
      | .ok a => (.ok a, 1, [])
      | .error _ =>
          let rest := executeFrom p fn rand (attempt + 1) remaining
          (rest.1, rest.2.1 + 1, p.calculateDelay attempt (rand attempt) :: rest.2.2)

/-- RetryPolicy.execute (resilience module lines 123-149): the for loop
runs attempt = 0 .. maxRetries inclusive, sleeping calculateDelay
(attempt) after every failure except the final one, and rethrows the
last error once the loop ends. -/
def RetryPolicy.execute (p : RetryPolicy) (fn : ℕ → Except ε α) (rand : ℕ → ℚ) :
    Except ε α × ℕ × List ℚ :=
  executeFrom p fn rand 0 p.maxRetries

/-- RateLimiter instance state plus configuration (rate limiter module):
token count, last-refill timestamp and the FIFO queue (only its length
matters to the claims). Clock values are rationals since refill divides
elapsed time by the window. -/
structure RateLimiter where
  maxTokens : ℚ
  windowMs : ℚ
  tokens : ℚ
  lastRefill : ℚ
  queueLength : ℕ
deriving DecidableEq, Repr

/-- RateLimiter.refillTokens (rate limiter module lines 32-46): full
refill once a whole window has elapsed, otherwise a smooth partial
refill proportional to elapsed time, capped at maxTokens. -/
def RateLimiter.refillTokens (rl : RateLimiter) (now : ℚ) : RateLimiter :=
  let elapsed := now - rl.lastRefill
  if elapsed ≥ rl.windowMs then
    { rl with tokens := rl.maxTokens, lastRefill := now }
  else
    { rl with tokens := min rl.maxTokens (rl.tokens + elapsed / rl.windowMs * rl.maxTokens)
              lastRefill := now }

/-- The tryAcquire closure inside RateLimiter.acquire (lines 57-66):
refill, then consume one token when at least one is available. -/
def RateLimiter.tryAcquire (rl : RateLimiter) (now : ℚ) : Bool × RateLimiter :=
  let r := rl.refillTokens now
  if r.tokens ≥ 1 then (true, { r with tokens := r.tokens - 1 })
  else (false, r)

/-- The immediate-acquisition path of RateLimiter.acquire (lines 52-83):
try once; on failure the caller is appended to the wait queue. -/
def RateLimiter.acquire (rl : RateLimiter) (now : ℚ) : Bool × RateLimiter :=
  let res := rl.tryAcquire now
  if res.1 then res
  else (false, { res.2 with queueLength := res.2.queueLength + 1 })

/-- One iteration of the drain loop in RateLimiter.processQueue (lines
88-109): with a nonempty queue, refill, and either serve the head
(consume a token, pop the queue) or sleep leaving the tokens as
refilled. -/
def RateLimiter.processQueueStep (rl : RateLimiter) (now : ℚ) : RateLimiter :=
  if rl.queueLength = 0 then rl
  else
    let r := rl.refillTokens now
    if r.tokens ≥ 1 then
      { r with tokens := r.tokens - 1, queueLength := r.queueLength - 1 }
    else r

/-- RateLimiter.reset (lines 135-142). -/
def RateLimiter.reset (rl : RateLimiter) (now : ℚ) : RateLimiter :=
  { rl with tokens := rl.maxTokens, lastRefill := now, queueLength := 0 }

/-- The token-count invariant of the claim: 0 ≤ tokens ≤ maxTokens. -/
def RateLimiter.tokensInv (rl : RateLimiter) : Prop :=
  0 ≤ rl.tokens ∧ rl.tokens ≤ rl.maxTokens

/-! Helper lemmas shared by the claim theorems. -/

lemma round_le_half (q : ℚ) : (round q : ℚ) ≤ q + 1 / 2 := by
  have h := abs_le.mp (abs_sub_round q)
  linarith [h.1, h.2]

lemma half_le_round (q : ℚ) : q - 1 / 2 ≤ (round q : ℚ) := by
  have h := abs_le.mp (abs_sub_round q)
  linarith [h.1, h.2]

/-- C5: for every nonzero entry price, calculateProfitLoss returns
(exit - entry) * quantity for long and (entry - exit) * quantity for
short, and the percent ((exit - entry)/entry) * 100 with the sign
flipped for short, each rounded to 2 decimal places. -/
theorem calculateProfitLoss_spec (entryPrice exitPrice quantity : ℚ) (side : Side)
    (h : entryPrice ≠ 0) :
    (side = .long → calculateProfitLoss entryPrice exitPrice quantity side =
      { profitLoss := toFixedQ 2 ((exitPrice - entryPrice) * quantity)
        profitLossPercent := toFixedQ 2 ((exitPrice - entryPrice) / entryPrice * 100) }) ∧
    (side = .short → calculateProfitLoss entryPrice exitPrice quantity side =
      { profitLoss := toFixedQ 2 ((entryPrice - exitPrice) * quantity)
        profitLossPercent :=
          toFixedQ 2 (-((exitPrice - entryPrice) / entryPrice * 100)) }) := by
  constructor
  · intro hs
    subst hs
    simp only [calculateProfitLoss, ProfitLossResult.mk.injEq]
    exact ⟨trivial, by rw [show (exitPrice - entryPrice) / entryPrice * 100 * 1 =
      (exitPrice - entryPrice) / entryPrice * 100 from by ring]⟩
  · intro hs
    subst hs
    simp only [calculateProfitLoss, ProfitLossResult.mk.injEq]
    exact ⟨trivial, by rw [show (exitPrice - entryPrice) / entryPrice * 100 * (-1) =
      -((exitPrice - entryPrice) / entryPrice * 100) from by ring]⟩

/-- Witness for C5 at the example given by the spec, calculateProfitLoss(100,
110, 10, side): profit 100 for long and -100 for short. -/
theorem calculateProfitLoss_spec_witness :
    calculateProfitLoss 100 110 10 .long = { profitLoss := 100, profitLossPercent := 10 } ∧
    calculateProfitLoss 100 110 10 .short =
      { profitLoss := -100, profitLossPercent := -10 } := by
  constructor
  · have h := (calculateProfitLoss_spec 100 110 10 .long (by norm_num)).1 rfl
    rw [h]
    simp only [toFixedQ, round_eq, ProfitLossResult.mk.injEq]
    norm_num
  · have h := (calculateProfitLoss_spec 100 110 10 .short (by norm_num)).2 rfl
    rw [h]
    simp only [toFixedQ, round_eq, ProfitLossResult.mk.injEq]
    norm_num

/-- C2 counterexample: at the positive entry price 0.00001 on the stock
market, long side, the 5-decimal rounding lifts the stop-loss back to
the entry price itself, so stopLoss < entryPrice fails. -/
theorem calculateStopLevels_counterexample :
    (0 : ℚ) < 1 / 100000 ∧
    ¬((calculateStopLevels (1 / 100000) .long .stock).stopLoss < 1 / 100000) := by
  constructor
  · norm_num
  · have h : (calculateStopLevels (1 / 100000) .long .stock).stopLoss = 1 / 100000 := by
      rw [calculateStopLevels]
      simp only [toFixedQ, round_eq, stockStopLossPercent]
      norm_num
    rw [h]
    exact lt_irrefl _

/-- C2 amended: the ordering stopLoss < entryPrice < takeProfit for long
(mirrored for short) holds for all positive entry prices on forex, and
on stocks for entry prices above 0.0002, where the percent-based stop
distance strictly exceeds the worst-case 5-decimal rounding error. -/
theorem calculateStopLevels_amended (e : ℚ) :
    ((1 / 5000 : ℚ) < e →
      ((calculateStopLevels e .long .stock).stopLoss < e ∧
        e < (calculateStopLevels e .long .stock).takeProfit) ∧
      ((calculateStopLevels e .short .stock).takeProfit < e ∧
        e < (calculateStopLevels e .short .stock).stopLoss)) ∧
    (0 < e →
      ((calculateStopLevels e .long .forex).stopLoss < e ∧
        e < (calculateStopLevels e .long .forex).takeProfit) ∧
      ((calculateStopLevels e .short .forex).takeProfit < e ∧
        e < (calculateStopLevels e .short .forex).stopLoss)) := by
  have hp : (0 : ℚ) < 10 ^ 5 := by norm_num
  constructor
  · intro he
    refine ⟨⟨?_, ?_⟩, ?_, ?_⟩
    · simp only [calculateStopLevels, toFixedQ, stockStopLossPercent]
      rw [div_lt_iff₀ hp]
      have h := round_le_half (e * (1 - 1 / 40) * 10 ^ 5)
      nlinarith
    · simp only [calculateStopLevels, toFixedQ, stockTakeProfitPercent]
      rw [lt_div_iff₀ hp]
      have h := half_le_round (e * (1 + 1 / 20) * 10 ^ 5)
      nlinarith
    · simp only [calculateStopLevels, toFixedQ, stockTakeProfitPercent]
      rw [div_lt_iff₀ hp]
      have h := round_le_half (e * (1 - 1 / 20) * 10 ^ 5)
      nlinarith
    · simp only [calculateStopLevels, toFixedQ, stockStopLossPercent]
      rw [lt_div_iff₀ hp]
      have h := half_le_round (e * (1 + 1 / 40) * 10 ^ 5)
      nlinarith
  · intro he
    refine ⟨⟨?_, ?_⟩, ?_, ?_⟩
    · simp only [calculateStopLevels, toFixedQ, forexStopLossPips, pipValue]
      rw [div_lt_iff₀ hp]
      have h := round_le_half ((e - 35 * (1 / 10000)) * 10 ^ 5)
      nlinarith
    · simp only [calculateStopLevels, toFixedQ, forexTakeProfitPips, pipValue]
      rw [lt_div_iff₀ hp]
      have h := half_le_round ((e + 70 * (1 / 10000)) * 10 ^ 5)
      nlinarith
    · simp only [calculateStopLevels, toFixedQ, forexTakeProfitPips, pipValue]
      rw [div_lt_iff₀ hp]
      have h := round_le_half ((e - 70 * (1 / 10000)) * 10 ^ 5)
      nlinarith
    · simp only [calculateStopLevels, toFixedQ, forexStopLossPips, pipValue]
      rw [lt_div_iff₀ hp]
      have h := half_le_round ((e + 35 * (1 / 10000)) * 10 ^ 5)
      nlinarith

/-- Witness for the amended C2 at entry price 100, both markets. -/
theorem calculateStopLevels_amended_witness :
    (calculateStopLevels 100 .long .stock).stopLoss < 100 ∧
    (100 : ℚ) < (calculateStopLevels 100 .long .stock).takeProfit ∧
    (calculateStopLevels 100 .long .forex).stopLoss < 100 := by
  have h := calculateStopLevels_amended 100
  exact ⟨(h.1 (by norm_num)).1.1, (h.1 (by norm_num)).1.2, (h.2 (by norm_num)).1.1⟩

/-- A long position whose stored levels are degenerate (stop-loss above
take-profit); such a row can be handed to shouldClosePosition since the
function takes any position record. -/
def degeneratePosition : Position :=
  { id := 7, symbol := "DGN", marketType := .stock, side := .long, entryPrice := 95
    quantity := 1, stopLoss := 100, takeProfit := 90, openedAt := 0 }

/-- C4 counterexample: for the degenerate long position with stop 100
and take 90 at current price 95, the price is at or above the
take-profit, yet the code answers STOP_LOSS_HIT at 100 because the
stop-loss comparison runs first — so the unconditional
take-profit clause fails. -/
theorem shouldClosePosition_counterexample :
    (95 : ℚ) ≥ degeneratePosition.takeProfit ∧
    shouldClosePosition degeneratePosition 95 ≠
      CloseDecision.close CloseReason.takeProfitHit degeneratePosition.takeProfit := by
  have heval : shouldClosePosition degeneratePosition 95 =
      CloseDecision.close CloseReason.stopLossHit 100 := by
    rw [shouldClosePosition]
    norm_num [degeneratePosition]
  constructor
  · norm_num [degeneratePosition]
  · rw [heval]
    simp [degeneratePosition]

/-- C4 amended: for every position whose stored levels are properly
ordered (stop-loss < take-profit for long, take-profit < stop-loss for
short), shouldClosePosition answers STOP_LOSS_HIT at the stop level,
TAKE_PROFIT_HIT at the take level, or no-close, exactly as the claim
describes. -/
theorem shouldClosePosition_amended (p : Position) (currentPrice : ℚ) :
    (p.side = .long → p.stopLoss < p.takeProfit →
      (currentPrice ≤ p.stopLoss →
        shouldClosePosition p currentPrice = .close .stopLossHit p.stopLoss) ∧
      (currentPrice ≥ p.takeProfit →
        shouldClosePosition p currentPrice = .close .takeProfitHit p.takeProfit) ∧
      (p.stopLoss < currentPrice → currentPrice < p.takeProfit →
        shouldClosePosition p currentPrice = .noClose)) ∧
    (p.side = .short → p.takeProfit < p.stopLoss →
      (currentPrice ≥ p.stopLoss →
        shouldClosePosition p currentPrice = .close .stopLossHit p.stopLoss) ∧
      (currentPrice ≤ p.takeProfit →
        shouldClosePosition p currentPrice = .close .takeProfitHit p.takeProfit) ∧
      (p.takeProfit < currentPrice → currentPrice < p.stopLoss →
        shouldClosePosition p currentPrice = .noClose)) := by
  constructor
  · intro hside hord
    simp only [shouldClosePosition, hside]
    refine ⟨fun h1 => ?_, fun h2 => ?_, fun h3 h4 => ?_⟩
    · rw [if_pos h1]
    · rw [if_neg (by intro hc; exact absurd hc (not_le.mpr (by linarith))), if_pos h2]
    · rw [if_neg (not_le.mpr h3), if_neg (not_le.mpr h4)]
  · intro hside hord
    simp only [shouldClosePosition, hside]
    refine ⟨fun h1 => ?_, fun h2 => ?_, fun h3 h4 => ?_⟩
    · rw [if_pos h1]
    · rw [if_neg (by intro hc; exact absurd hc (not_le.mpr (by linarith))), if_pos h2]
    · rw [if_neg (not_le.mpr h4), if_neg (not_le.mpr h3)]

/-- The example position of the spec: long, entry 100, stop 97.5, take 110. -/
def examplePosition : Position :=
  { id := 1, symbol := "EXM", marketType := .stock, side := .long, entryPrice := 100
    quantity := 1, stopLoss := 195 / 2, takeProfit := 110, openedAt := 0 }

/-- Witness for the amended C4 at the example position: price 97
closes at the stop, price 111 closes at the take, price 105 stays. -/
theorem shouldClosePosition_amended_witness :
    shouldClosePosition examplePosition 97 =
      CloseDecision.close CloseReason.stopLossHit (195 / 2) ∧
    shouldClosePosition examplePosition 111 =
      CloseDecision.close CloseReason.takeProfitHit 110 ∧
    shouldClosePosition examplePosition 105 = CloseDecision.noClose := by
  refine ⟨?_, ?_, ?_⟩
  · have h := ((shouldClosePosition_amended examplePosition 97).1 rfl
      (by norm_num [examplePosition])).1 (by norm_num [examplePosition])
    simpa [examplePosition] using h
  · have h := ((shouldClosePosition_amended examplePosition 111).1 rfl
      (by norm_num [examplePosition])).2.1 (by norm_num [examplePosition])
    simpa [examplePosition] using h
  · exact ((shouldClosePosition_amended examplePosition 105).1 rfl
      (by norm_num [examplePosition])).2.2 (by norm_num [examplePosition])
      (by norm_num [examplePosition])

/-- C3: for positive balance and entry price and a non-degenerate stop,
calculatePositionSize returns positionValue = quantity * entryPrice, the
position value never exceeds 95 percent of the balance, and whenever the
pre-cap quantity would exceed that cap the quantity is re-floored as
floor(0.95 * balance / entryPrice). -/
theorem calculatePositionSize_cap (balance entryPrice stopLossPrice : ℚ)
    (marketType : MarketType) (hb : 0 < balance) (he : 0 < entryPrice)
    (hs : stopLossPrice ≠ entryPrice) :
    calculatePositionSize balance entryPrice stopLossPrice marketType =
      .sized (cappedQuantity balance entryPrice stopLossPrice marketType)
        (balance * maxRiskPerTrade)
        (cappedQuantity balance entryPrice stopLossPrice marketType * entryPrice)
        (balance * maxRiskPerTrade / balance * 100) ∧
    cappedQuantity balance entryPrice stopLossPrice marketType * entryPrice ≤
      balance * (19 / 20) ∧
    (preCapQuantity balance entryPrice stopLossPrice marketType * entryPrice >
        balance * (19 / 20) →
      cappedQuantity balance entryPrice stopLossPrice marketType =
        ((⌊balance * (19 / 20) / entryPrice⌋ : ℤ) : ℚ)) := by
  have habs : |entryPrice - stopLossPrice| ≠ 0 :=
    abs_ne_zero.mpr (sub_ne_zero.mpr (Ne.symm hs))
  refine ⟨?_, ?_, ?_⟩
  · rw [calculatePositionSize, if_neg habs]
  · rw [cappedQuantity]
    split_ifs with hcap
    · calc ((⌊balance * (19 / 20) / entryPrice⌋ : ℤ) : ℚ) * entryPrice
          ≤ balance * (19 / 20) / entryPrice * entryPrice :=
            mul_le_mul_of_nonneg_right (Int.floor_le _) he.le
        _ = balance * (19 / 20) := div_mul_cancel₀ _ he.ne'
    · exact le_of_not_lt hcap
  · intro hcap
    rw [cappedQuantity, if_pos hcap]

/-- Witness for C3 at balance 10000, entry 100, stop 97.5, stock: the
returned position value, 80 shares at 100, fits under 95 percent of the
balance. -/
theorem calculatePositionSize_cap_witness :
    cappedQuantity 10000 100 (195 / 2) .stock * 100 ≤ 10000 * (19 / 20) :=
  (calculatePositionSize_cap 10000 100 (195 / 2) .stock (by norm_num) (by norm_num)
    (by norm_num)).2.1

/-- C6: openPosition never changes the stored user balance, whether it
rejects the trade or opens the position. -/
theorem openPosition_preserves_balance (s : EngineState) (symbol : String)
    (marketType : MarketType) (side : Side) (entryPrice : ℚ) (now : ℤ) :
    ((openPosition s symbol marketType side entryPrice now).2).balance = s.balance := by
  rw [openPosition]
  rcases calculatePositionSize s.balance entryPrice
      (calculateStopLevels entryPrice side marketType).stopLoss marketType with
    _ | ⟨q, ra, pv, rp⟩
  · rfl
  · by_cases hq : q ≤ 0
    · simp only [if_pos hq]
    · simp only [if_neg hq]

/-- An open long position used to exercise closePosition: entry 100,
quantity 10, stop 97.5, take 110. -/
def c1Position : Position :=
  { id := 1, symbol := "TSLA", marketType := .stock, side := .long, entryPrice := 100
    quantity := 10, stopLoss := 195 / 2, takeProfit := 110, openedAt := 0 }

/-- Database state before the close: balance 10000, one open position,
no trades yet. -/
def c1State : EngineState :=
  { balance := 10000, positions := [c1Position], trades := []
    bot := { tradesToday := 1, lastTradeAt := some 0 }, nextPositionId := 2 }

/-- C1: closing position 1 at exit price 110 when the trade-insert write
throws leaves the state with the balance already advanced to 10100, no
Trade row and the position still open — the balance update survives the
failure, so the three state changes are not all-or-nothing and the prior
state is not restored. -/
theorem closePosition_not_atomic :
    (closePosition c1State 1 110 "AI_SELL_SIGNAL" 5 false true false).1 =
      CloseOutcome.threw ∧
    ((closePosition c1State 1 110 "AI_SELL_SIGNAL" 5 false true false).2).balance =
      10100 ∧
    ((closePosition c1State 1 110 "AI_SELL_SIGNAL" 5 false true false).2).trades =
      [] ∧
    ((closePosition c1State 1 110 "AI_SELL_SIGNAL" 5 false true false).2).positions =
      [c1Position] ∧
    (closePosition c1State 1 110 "AI_SELL_SIGNAL" 5 false true false).2 ≠ c1State := by
  have hbal : ((closePosition c1State 1 110 "AI_SELL_SIGNAL" 5 false true false).2).balance =
      10100 := by
    have h0 : ((closePosition c1State 1 110 "AI_SELL_SIGNAL" 5 false true false).2).balance =
        10000 + (calculateProfitLoss 100 110 10 .long).profitLoss := rfl
    rw [h0, calculateProfitLoss]
    simp only [toFixedQ, round_eq]
    norm_num
  refine ⟨rfl, hbal, rfl, rfl, fun hEq => ?_⟩
  have hc := congrArg EngineState.balance hEq
  rw [hbal] at hc
  norm_num [c1State] at hc

/-- The LOSS_COOLDOWN condition as the code implements it (modulo the
amendment): last_trade_at of the bot status is set, the most recent trade in the
trades table was a loss, and less than 15 minutes have elapsed since
last_trade_at — the timestamp written when the last position was opened. -/
def lossCooldownBlockedAmended (s : EngineState) (now : ℤ) : Bool :=
  match s.bot.lastTradeAt with
  | none => false
  | some lastTradeTime =>
      match s.trades.head? with
      | none => false
      | some lastTrade =>
          decide (lastTrade.profitLoss < 0) && decide (now - lastTradeTime < cooldownMs)

/-- The LOSS_COOLDOWN condition as the claim words it: the most recent
trade was a loss and less than 15 minutes have elapsed since that trade
closed. -/
def lossCooldownBlockedClaim (s : EngineState) (now : ℤ) : Bool :=
  match s.trades.head? with
  | none => false
  | some lastTrade =>
      decide (lastTrade.profitLoss < 0) && decide (now - lastTrade.closedAt < cooldownMs)

/-- A losing trade that was opened at time 0 and closed 20 minutes
later. -/
def c7Trade : TradeRecord :=
  { symbol := "TSLA", marketType := .stock, side := .long, entryPrice := 100
    exitPrice := 95, quantity := 10, profitLoss := -50, profitLossPercent := -5
    exitReason := "STOP_LOSS_HIT", openedAt := 0, closedAt := 1200000 }

/-- State in which the last position opened at time 0 (last_trade_at =
0) and its trade closed at a loss at minute 20. -/
def c7State : EngineState :=
  { balance := 10000, positions := [], trades := [c7Trade]
    bot := { tradesToday := 1, lastTradeAt := some 0 }, nextPositionId := 2 }

/-- C7 counterexample: at minute 21, only one minute after the losing
trade closed, the wording of the claim demands a LOSS_COOLDOWN block, but
canOpenTrade produces no failed LOSS_COOLDOWN check because 21 minutes
have passed since last_trade_at, the open-time timestamp the code
actually measures from. -/
theorem lossCooldown_counterexample :
    lossCooldownBlockedClaim c7State 1260000 = true ∧
    hasFailedLossCooldown (canOpenTrade 3 c7State "AAPL" 10000 1260000).2 = false := by
  constructor
  · rw [lossCooldownBlockedClaim]
    simp only [c7State, c7Trade, List.head?, cooldownMs]
    norm_num
  · rw [canOpenTrade, hasFailedLossCooldown]
    simp only [c7State, c7Trade, List.head?, cooldownMs]
    rw [if_neg (by norm_num)]
    simp [hasFailedLossCooldown]

/-- C7 amended: canOpenTrade emits a failing LOSS_COOLDOWN check exactly
when last_trade_at is set, the most recent trade in the trades table was
a loss, and less than 15 minutes have elapsed since last_trade_at (the
moment the last position was opened), not since the trade closed. -/
theorem canOpenTrade_lossCooldown_amended (maxPerDay : ℕ) (s : EngineState)
    (symbol : String) (balance : ℚ) (now : ℤ) :
    hasFailedLossCooldown (canOpenTrade maxPerDay s symbol balance now).2 =
      lossCooldownBlockedAmended s now := by
  rw [canOpenTrade, hasFailedLossCooldown, lossCooldownBlockedAmended]
  cases hlt : s.bot.lastTradeAt with
  | none => simp
  | some lastTradeTime =>
      cases hh : s.trades.head? with
      | none => simp
      | some lastTrade =>
          dsimp only
          by_cases hcond : lastTrade.profitLoss < 0 ∧ now - lastTradeTime < cooldownMs
          · rw [if_pos hcond]
            simp [hcond.1, hcond.2]
          · rw [if_neg hcond]
            rcases not_and_or.mp hcond with hno | hno <;> simp [hno]

lemma recordFailure_closed_small (b : CircuitBreaker) (now : ℤ)
    (hstate : b.state = .closed) (hsmall : b.failureCount + 1 < b.failureThreshold) :
    b.recordFailure now =
      { b with failureCount := b.failureCount + 1, lastFailureTime := some now } := by
  rw [CircuitBreaker.recordFailure]
  dsimp only
  rw [if_neg (show ¬(b.failureCount + 1 ≥ b.failureThreshold) from by omega)]
  simp [hstate]

lemma recordFailure_closed_trip (b : CircuitBreaker) (now : ℤ)
    (hstate : b.state = .closed) (hbig : b.failureCount + 1 ≥ b.failureThreshold) :
    b.recordFailure now =
      { b with failureCount := b.failureCount + 1, lastFailureTime := some now
               state := .opened, nextAttemptTime := some (now + b.resetTimeout) } := by
  rw [CircuitBreaker.recordFailure]
  dsimp only
  rw [if_pos (show b.failureCount + 1 ≥ b.failureThreshold from hbig)]
  simp

lemma applyFailures_closed (times : ℕ → ℤ) :
    ∀ (n : ℕ) (b : CircuitBreaker), b.state = .closed →
      b.failureCount + n < b.failureThreshold →
      (applyFailures b times n).state = .closed ∧
      (applyFailures b times n).failureCount = b.failureCount + n ∧
      (applyFailures b times n).failureThreshold = b.failureThreshold ∧
      (applyFailures b times n).resetTimeout = b.resetTimeout := by
  intro n
  induction n with
  | zero => exact fun b h1 _ => ⟨h1, rfl, rfl, rfl⟩
  | succ k ih =>
      intro b h1 h2
      obtain ⟨hs, hc, ht, hr⟩ := ih b h1 (by omega)
      rw [applyFailures, recordFailure_closed_small _ _ hs (by omega)]
      refine ⟨?_, ?_, ?_, ?_⟩ <;> dsimp only
      · exact hs
      · rw [hc, Nat.add_assoc]
      · exact ht
      · exact hr

lemma applyFailures_trips (b : CircuitBreaker) (times : ℕ → ℤ)
    (hstate : b.state = .closed) (hcount : b.failureCount = 0)
    (hpos : 0 < b.failureThreshold) :
    (applyFailures b times b.failureThreshold).state = .opened ∧
    (applyFailures b times b.failureThreshold).nextAttemptTime =
      some (times (b.failureThreshold - 1) + b.resetTimeout) := by
  obtain ⟨m, hm⟩ : ∃ m, b.failureThreshold = m + 1 := ⟨b.failureThreshold - 1, by omega⟩
  obtain ⟨hs, hc, ht, hr⟩ := applyFailures_closed times m b hstate (by omega)
  rw [hm, applyFailures, recordFailure_closed_trip _ _ hs (by omega)]
  refine ⟨rfl, ?_⟩
  dsimp only
  rw [hr]
  norm_num

/-- C8 amended: from a fresh CLOSED breaker, failureThreshold
consecutive recordFailure calls open the breaker with nextAttemptTime =
lastFailureTime + resetTimeout; while now is before that moment
canAttempt answers false and changes nothing; once it is reached,
canAttempt answers true, moving the breaker to HALF_OPEN with the
success count reset; and in HALF_OPEN, canAttempt answers true exactly
while successes-so-far is below halfOpenRequests — since the check
itself records nothing, it can keep answering true until the next
recordSuccess or recordFailure, rather than exactly once. -/
theorem circuitBreaker_amended (b : CircuitBreaker) (times : ℕ → ℤ) (now : ℤ)
    (hstate : b.state = .closed) (hcount : b.failureCount = 0)
    (hpos : 0 < b.failureThreshold) :
    ((applyFailures b times b.failureThreshold).state = .opened ∧
      (applyFailures b times b.failureThreshold).nextAttemptTime =
        some (times (b.failureThreshold - 1) + b.resetTimeout)) ∧
    (now < times (b.failureThreshold - 1) + b.resetTimeout →
      (applyFailures b times b.failureThreshold).canAttempt now =
        (false, applyFailures b times b.failureThreshold)) ∧
    (times (b.failureThreshold - 1) + b.resetTimeout ≤ now →
      ((applyFailures b times b.failureThreshold).canAttempt now).1 = true ∧
      (((applyFailures b times b.failureThreshold).canAttempt now).2).state =
        .halfOpen ∧
      (((applyFailures b times b.failureThreshold).canAttempt now).2).successCount =
        0) ∧
    (∀ c : CircuitBreaker, c.state = .halfOpen →
      (c.canAttempt now).1 = decide (c.successCount < c.halfOpenRequests)) := by
  obtain ⟨hopen, hnext⟩ := applyFailures_trips b times hstate hcount hpos
  refine ⟨⟨hopen, hnext⟩, fun hlt => ?_, fun hge => ?_, fun c hc => ?_⟩
  · rw [CircuitBreaker.canAttempt, hopen, hnext]
    dsimp only
    rw [if_neg (not_le.mpr hlt)]
  · rw [CircuitBreaker.canAttempt, hopen, hnext]
    dsimp only
    rw [if_pos hge]
    exact ⟨rfl, rfl, rfl⟩
  · rw [CircuitBreaker.canAttempt, hc]

/-- A fresh breaker with threshold 1, reset timeout 10 and one
half-open trial request. -/
def cbWitness : CircuitBreaker :=
  { failureThreshold := 1, resetTimeout := 10, halfOpenRequests := 1
    state := .closed, failureCount := 0, successCount := 0
    lastFailureTime := none, nextAttemptTime := none }

/-- Witness for the amended C8: after one failure at time 0, canAttempt
is false at time 4 and true at time 10. -/
theorem circuitBreaker_amended_witness :
    ((applyFailures cbWitness (fun _ => 0) 1).canAttempt 4 =
      (false, applyFailures cbWitness (fun _ => 0) 1)) ∧
    ((applyFailures cbWitness (fun _ => 0) 1).canAttempt 10).1 = true := by
  have h4 := circuitBreaker_amended cbWitness (fun _ => 0) 4 rfl rfl (by decide)
  have h10 := circuitBreaker_amended cbWitness (fun _ => 0) 10 rfl rfl (by decide)
  exact ⟨h4.2.1 (by decide), (h10.2.2.1 (by decide)).1⟩

/-- A fresh breaker used for the counterexample: threshold 1, reset
timeout 10, one half-open trial request. -/
def cbCx : CircuitBreaker :=
  { failureThreshold := 1, resetTimeout := 10, halfOpenRequests := 1
    state := .closed, failureCount := 0, successCount := 0
    lastFailureTime := none, nextAttemptTime := none }

/-- C8 counterexample: after the breaker opens at time 0 with reset
timeout 10, canAttempt at time 10 answers true (entering HALF_OPEN), and
a second canAttempt before any recordSuccess or recordFailure answers
true again — not exactly once. -/
theorem canAttempt_counterexample :
    (((cbCx.recordFailure 0).canAttempt 10).1 = true) ∧
    (((((cbCx.recordFailure 0).canAttempt 10).2).canAttempt 10).1 = true) := by
  decide

lemma delayList_shift (p : RetryPolicy) (rand : ℕ → ℚ) (attempt k : ℕ) :
    p.calculateDelay attempt (rand attempt) ::
      (List.range k).map
        (fun i => p.calculateDelay (attempt + 1 + i) (rand (attempt + 1 + i))) =
    (List.range (k + 1)).map
      (fun i => p.calculateDelay (attempt + i) (rand (attempt + i))) := by
  rw [List.range_succ_eq_map, List.map_cons, List.map_map]
  rw [show attempt + 0 = attempt from rfl]
  refine congrArg (List.cons _) (List.map_congr_left fun i _ => ?_)
  simp only [Function.comp_apply]
  rw [show attempt + 1 + i = attempt + (i + 1) from by omega]

lemma executeFrom_allFail (p : RetryPolicy) (fn : ℕ → Except ε α) (rand : ℕ → ℚ)
    (hfail : ∀ i, ∃ e, fn i = .error e) :
    ∀ (remaining attempt : ℕ),
      executeFrom p fn rand attempt remaining =
        (fn (attempt + remaining), remaining + 1,
          (List.range remaining).map
            (fun i => p.calculateDelay (attempt + i) (rand (attempt + i)))) := by
  intro remaining
  induction remaining with
  | zero => intro attempt; simp [executeFrom]
  | succ k ih =>
      intro attempt
      obtain ⟨e, he⟩ := hfail attempt
      rw [executeFrom, he, ih (attempt + 1)]
      dsimp only
      rw [show attempt + 1 + k = attempt + (k + 1) from by omega, delayList_shift]

lemma executeFrom_untilSuccess (p : RetryPolicy) (fn : ℕ → Except ε α) (rand : ℕ → ℚ) :
    ∀ (j remaining attempt : ℕ) (a : α), j ≤ remaining →
      (∀ i, i < j → ∃ e, fn (attempt + i) = .error e) →
      fn (attempt + j) = .ok a →
      executeFrom p fn rand attempt remaining =
        (.ok a, j + 1,
          (List.range j).map
            (fun i => p.calculateDelay (attempt + i) (rand (attempt + i)))) := by
  intro j
  induction j with
  | zero =>
      intro remaining attempt a _ _ hok
      have hfn : fn attempt = .ok a := by simpa using hok
      cases remaining with
      | zero => rw [executeFrom, hfn]; simp
      | succ m => rw [executeFrom, hfn]; simp
  | succ jj ih =>
      intro remaining attempt a hle hfails hok
      obtain ⟨m, hm⟩ : ∃ m, remaining = m + 1 := ⟨remaining - 1, by omega⟩
      subst hm
      obtain ⟨e, he⟩ := hfails 0 (by omega)
      rw [show attempt + 0 = attempt from rfl] at he
      rw [executeFrom, he]
      rw [ih m (attempt + 1) a (by omega)
        (fun i hi => by
          rw [show attempt + 1 + i = attempt + (i + 1) from by omega]
          exact hfails (i + 1) (by omega))
        (by rw [show attempt + 1 + jj = attempt + (jj + 1) from by omega]; exact hok)]
      dsimp only
      rw [delayList_shift]

/-- C9 amended: RetryPolicy.execute invokes the operation up to
maxRetries + 1 times in total (one initial attempt plus maxRetries
retries). When every attempt fails it performs all maxRetries + 1
invocations, sleeps delay(attempt) = min(initialDelay *
backoffMultiplier ^ attempt, maxDelay) plus jitter of jitterFactor *
that capped delay * the random sample between consecutive attempts, and
rethrows the error of the final attempt; when attempt k ≤ maxRetries is
the first to succeed, its result is returned after exactly k + 1
invocations and no further attempts are made. -/
theorem retryPolicy_execute_amended (p : RetryPolicy) (fn : ℕ → Except ε α)
    (rand : ℕ → ℚ) :
    ((∀ i, ∃ e, fn i = .error e) →
      p.execute fn rand =
        (fn p.maxRetries, p.maxRetries + 1,
          (List.range p.maxRetries).map (fun i => p.calculateDelay i (rand i)))) ∧
    (∀ (k : ℕ) (a : α), k ≤ p.maxRetries →
      (∀ i, i < k → ∃ e, fn i = .error e) → fn k = .ok a →
      p.execute fn rand =
        (.ok a, k + 1,
          (List.range k).map (fun i => p.calculateDelay i (rand i)))) := by
  constructor
  · intro hfail
    rw [RetryPolicy.execute, executeFrom_allFail p fn rand hfail p.maxRetries 0]
    simp
  · intro k a hk hfails hok
    rw [RetryPolicy.execute,
      executeFrom_untilSuccess p fn rand k p.maxRetries 0 a hk
        (fun i hi => by simpa using hfails i hi) (by simpa using hok)]
    simp

/-- A retry policy with two retries, the default delays of the source and no
jitter sampling effect (the random draw is taken as 0). -/
def retryW : RetryPolicy :=
  { maxRetries := 2, initialDelay := 1000, maxDelay := 30000
    backoffMultiplier := 2, jitterFactor := 1 / 10 }

/-- The operation that fails on every attempt, raising the attempt
index as the error. -/
def alwaysFail : ℕ → Except ℕ ℕ := fun i => .error i

/-- Math.random() stub returning 0 on every draw. -/
def zeroRand : ℕ → ℚ := fun _ => 0

/-- Witness for the amended C9: with maxRetries = 2 and an operation
that always fails, execute makes 3 invocations, sleeps 1000 then 2000
milliseconds, and rethrows the error of attempt 2. -/
theorem retryPolicy_execute_amended_witness :
    retryW.execute alwaysFail zeroRand = (.error 2, 3, [1000, 2000]) := by
  have h := (retryPolicy_execute_amended retryW alwaysFail zeroRand).1
    (fun i => ⟨i, rfl⟩)
  rw [h]
  rw [show (List.range retryW.maxRetries) = [0, 1] from by decide]
  simp only [List.map_cons, List.map_nil, RetryPolicy.calculateDelay]
  norm_num [retryW, alwaysFail, zeroRand]

/-- The default retry policy of the source: maxRetries 3, initialDelay 1000,
maxDelay 30000, backoffMultiplier 2, jitterFactor 0.1. -/
def retryDefault : RetryPolicy :=
  { maxRetries := 3, initialDelay := 1000, maxDelay := 30000
    backoffMultiplier := 2, jitterFactor := 1 / 10 }

/-- C9 counterexample: with the default maxRetries = 3 and an operation
that always fails, execute invokes the operation 4 times — more than
the maxRetries total invocations the claim allows. -/
theorem retryPolicy_counterexample :
    (retryDefault.execute alwaysFail zeroRand).2.1 = 4 ∧
    ¬((retryDefault.execute alwaysFail zeroRand).2.1 ≤ retryDefault.maxRetries) := by
  constructor
  · rfl
  · rw [show (retryDefault.execute alwaysFail zeroRand).2.1 = 4 from rfl]
    decide

lemma refillTokens_maxTokens (rl : RateLimiter) (now : ℚ) :
    (rl.refillTokens now).maxTokens = rl.maxTokens := by
  rw [RateLimiter.refillTokens]
  split <;> rfl

lemma refillTokens_inv (rl : RateLimiter) (now : ℚ) (hwin : 0 < rl.windowMs)
    (hclock : rl.lastRefill ≤ now) (hinv : rl.tokensInv) :
    (rl.refillTokens now).tokensInv := by
  obtain ⟨h0, hmax⟩ := hinv
  have hM : 0 ≤ rl.maxTokens := le_trans h0 hmax
  rw [RateLimiter.refillTokens]
  split
  · exact ⟨hM, le_refl _⟩
  · constructor
    · exact le_min hM (add_nonneg h0 (mul_nonneg
        (div_nonneg (sub_nonneg.mpr hclock) hwin.le) hM))
    · exact min_le_left _ _

lemma refillTokens_full (rl : RateLimiter) (now : ℚ)
    (hfull : rl.windowMs ≤ now - rl.lastRefill) :
    (rl.refillTokens now).tokens = rl.maxTokens := by
  rw [RateLimiter.refillTokens, if_pos hfull]

lemma acquire_eq (rl : RateLimiter) (now : ℚ) :
    rl.acquire now =
      if 1 ≤ (rl.refillTokens now).tokens then
        (true, { rl.refillTokens now with tokens := (rl.refillTokens now).tokens - 1 })
      else
        (false, { rl.refillTokens now with
                   queueLength := (rl.refillTokens now).queueLength + 1 }) := by
  rw [RateLimiter.acquire, RateLimiter.tryAcquire]
  dsimp only
  split
  · next hge => simp [hge]
  · next hge => simp [hge]

/-- C10: under a non-decreasing clock and a positive window, every
RateLimiter transition preserves 0 ≤ tokens ≤ maxTokens: refills cap at
maxTokens, a full elapsed window restores exactly maxTokens, the
immediate acquisition path decrements by one only when the refilled
count is at least one, queue draining serves at most one token per
step, and reset restores the full bucket. -/
theorem rateLimiter_invariant (rl : RateLimiter) (now : ℚ) (hwin : 0 < rl.windowMs)
    (hclock : rl.lastRefill ≤ now) (hinv : rl.tokensInv) :
    (rl.refillTokens now).tokensInv ∧
    (rl.windowMs ≤ now - rl.lastRefill → (rl.refillTokens now).tokens = rl.maxTokens) ∧
    ((rl.acquire now).2).tokensInv ∧
    ((rl.acquire now).1 = true →
      1 ≤ (rl.refillTokens now).tokens ∧
      ((rl.acquire now).2).tokens = (rl.refillTokens now).tokens - 1) ∧
    (rl.processQueueStep now).tokensInv ∧
    (rl.reset now).tokensInv := by
  obtain ⟨h0, hmax⟩ := hinv
  have hM : 0 ≤ rl.maxTokens := le_trans h0 hmax
  obtain ⟨hr0, hrmax⟩ := refillTokens_inv rl now hwin hclock ⟨h0, hmax⟩
  have hrM : (rl.refillTokens now).maxTokens = rl.maxTokens :=
    refillTokens_maxTokens rl now
  refine ⟨⟨hr0, hrmax⟩, fun hfull => refillTokens_full rl now hfull, ?_, ?_, ?_, ?_⟩
  · rw [acquire_eq]
    split_ifs with hge
    · exact ⟨by dsimp only; linarith, by dsimp only; linarith⟩
    · exact ⟨hr0, hrmax⟩
  · rw [acquire_eq]
    split_ifs with hge
    · exact fun _ => ⟨hge, rfl⟩
    · intro hfalse; cases hfalse
  · simp only [RateLimiter.processQueueStep]
    split_ifs with h1 h2
    · exact ⟨h0, hmax⟩
    · exact ⟨by dsimp only; linarith, by dsimp only; linarith⟩
    · exact ⟨hr0, hrmax⟩
  · exact ⟨hM, le_refl _⟩

/-- A limiter with the twelveData configuration of the source, 3 tokens left
and a half-window elapsed since the last refill. -/
def rlWitness : RateLimiter :=
  { maxTokens := 7, windowMs := 60000, tokens := 3, lastRefill := 0, queueLength := 0 }

/-- Witness for C10 at the twelveData configuration: the refill at
half-window and the reset both respect 0 ≤ tokens ≤ maxTokens. -/
theorem rateLimiter_invariant_witness :
    (rlWitness.refillTokens 30000).tokensInv ∧ (rlWitness.reset 30000).tokensInv := by
  have h := rateLimiter_invariant rlWitness 30000 (by norm_num [rlWitness])
    (by norm_num [rlWitness]) ⟨by norm_num [rlWitness], by norm_num [rlWitness]⟩
  exact ⟨h.1, h.2.2.2.2.2⟩
